import Mathlib

/-!
Verification of the `yolov11_det_pytorch` repository: a shallow embedding of
the inference wrapper `YOLOv11Det` (src/yolov11_det/yolov11_det.py) and of the
packaging script (build.py), together with theorems settling the specification
claims about them.

File systems are modelled as finite sets of directory paths and file paths,
where a path is its list of `/`-separated components.  File contents are not
modelled: none of the claims depends on them.  External effects (the
underlying detection engine, the Cython and `uv` subprocesses) enter the
model as explicit parameters; everything the repository's own Python code
does to the file system is embedded as pure functions on the `FS` state.
-/

set_option maxRecDepth 20000

/-- A file-system path, as its list of `/`-separated components. -/
abbrev FPath := List String

/-- A file-system state: which directories and which files exist.
The lists are read as finite sets (membership is what matters); the
operations below only ever filter or insert-if-absent, so list equality
coincides with state equality on every state they produce. -/
structure FS where
  dirs : List FPath
  files : List FPath
deriving DecidableEq

/-- Split a string on `/` (auxiliary, structural recursion over the
character list so that concrete instances reduce in the kernel). -/
def splitSlashAux : List Char → List Char → List (List Char)
  | [], acc => [acc.reverse]
  | c :: cs, acc =>
    if c = '/' then acc.reverse :: splitSlashAux cs []
    else splitSlashAux cs (c :: acc)

/-- Turn a Python path string into its component list, dropping empty
components (so `"runs/pred"` becomes `["runs", "pred"]`, and a trailing
slash is immaterial, as it is for `pathlib.Path`). -/
def strPath (s : String) : FPath :=
  ((splitSlashAux s.data []).map fun cs => String.mk cs).filter (fun c => c ≠ "")

/-- Insert a path into a list of paths if it is not already present. -/
def insertPath (l : List FPath) (p : FPath) : List FPath :=
  if p ∈ l then l else l ++ [p]

/-- Create a file (overwriting is invisible since contents are not
modelled): `cv2.imwrite`, `Path.write_text`, `shutil.copy`. -/
def addFile (fs : FS) (p : FPath) : FS :=
  { fs with files := insertPath fs.files p }

/-- `Path.mkdir(parents=True, exist_ok=True)` / `os.makedirs`: create the
directory and every missing ancestor. -/
def mkdirParents (fs : FS) (p : FPath) : FS :=
  { fs with dirs := (p.inits.filter (fun q => q ≠ [])).foldl insertPath fs.dirs }

/-- `shutil.rmtree(p, ignore_errors=True)`: if `p` is an existing
directory, remove it and everything below it; otherwise (absent path, or a
plain file) do nothing — `ignore_errors=True` swallows the failure. -/
def rmtree (fs : FS) (p : FPath) : FS :=
  if p ∈ fs.dirs then
    { dirs := fs.dirs.filter (fun d => decide (¬ p <+: d)),
      files := fs.files.filter (fun f => decide (¬ p <+: f)) }
  else fs

/-- `Path.unlink(missing_ok=True)` on a file path. -/
def unlinkFile (fs : FS) (p : FPath) : FS :=
  { fs with files := fs.files.filter (fun f => decide (f ≠ p)) }

/-- `Path(s).exists()` over the modelled state. -/
def pathExistsFS (fs : FS) (s : String) : Bool :=
  decide (strPath s ∈ fs.files) || decide (strPath s ∈ fs.dirs)

/-! ## Inference wrapper: `YOLOv11Det` (yolov11_det.py)

The underlying `ultralytics` engine is external: a call
`self.model.predict(...)` is modelled by the list of result objects it
returns, each carrying the fields the wrapper reads — `r.path` (a string
or `None`; Python truthiness distinguishes `None`/`""` from a real path)
and `r.boxes` (`None` or a list of boxes, each with its `xyxy` row, class
id and confidence).  Coordinates and confidences are carried as rationals;
the wrapper only copies them, so their arithmetic nature is irrelevant. -/

/-- One detected box as the engine reports it: the `box.xyxy[0]` row,
`box.cls[0]` and `box.conf[0]` already extracted. -/
structure Box where
  xyxy : List Rat
  cls : Int
  conf : Rat
deriving DecidableEq

/-- One entry of the dictionary the wrapper builds per box:
`{"xyxy": ..., "cls": ..., "conf": ...}`. -/
structure Det where
  xyxy : List Rat
  cls : Int
  conf : Rat
deriving DecidableEq

/-- One engine result `r`: the fields of it that `predict` reads. -/
structure EngineResult where
  path : Option String
  boxes : Option (List Box)
deriving DecidableEq

/-- One element of the list `predict` returns:
`{"source": ..., "detections": ...}`. -/
structure FrameRec where
  source : String
  detections : List Det
deriving DecidableEq

/-- Python truthiness of `r.path`: `None` and `""` are falsy. -/
def pathTruthy : Option String → Bool
  | none => false
  | some s => decide (s ≠ "")

/-- The detection list built for one result: `[]` when `r.boxes is None`,
else one record per box. -/
def detsOf (r : EngineResult) : List Det :=
  match r.boxes with
  | none => []
  | some bs => bs.map fun b => { xyxy := b.xyxy, cls := b.cls, conf := b.conf }

/-- `str(r.path or idx)`. -/
def sourceStr (r : EngineResult) (idx : Nat) : String :=
  if pathTruthy r.path then r.path.getD "" else toString idx

/-- Index (from the end reversed, converted) of the last `'.'` in a name. -/
def lastDotIdx (cs : List Char) : Option Nat :=
  match cs.reverse.findIdx? (fun c => c = '.') with
  | none => none
  | some k => some (cs.length - 1 - k)

/-- `pathlib`'s `stem` of a file NAME: the name without its suffix, where
the suffix starts at the last dot provided that dot is neither the first
nor the last character (`".bashrc"` and `"a."` have no suffix). -/
def pyStemName (name : String) : String :=
  match lastDotIdx name.data with
  | none => name
  | some i =>
    if 0 < i ∧ i < name.data.length - 1 then String.mk (name.data.take i) else name

/-- `Path(s).name`: the last component. -/
def fileNameOf (s : String) : String := (strPath s).getLastD ""

/-- `f"{idx:08d}"` for a natural number. -/
def pad8 (n : Nat) : String :=
  String.mk (List.replicate (8 - (toString n).length) '0') ++ toString n

/-- `str(dir / name)` for a relative dir given as a string. -/
def joinPath (d n : String) : String := if d = "" then n else d ++ "/" ++ n

/-- The save path `predict` computes for result `r` at loop index `idx`:
`out_dir / f"{Path(r.path).stem}_pred.jpg"` when `r.path` is truthy,
`out_dir / f"frame_{idx:08d}.jpg"` otherwise. -/
def savePathOf (outDir : String) (r : EngineResult) (idx : Nat) : String :=
  if pathTruthy r.path then
    joinPath outDir (pyStemName (fileNameOf (r.path.getD "")) ++ "_pred.jpg")
  else
    joinPath outDir ("frame_" ++ pad8 idx ++ ".jpg")

/-- The record appended to `all_dets` for result `r` at loop index `idx`. -/
def frameRecOf (r : EngineResult) (idx : Nat) : FrameRec :=
  { source := sourceStr r idx, detections := detsOf r }

/-- A file-system-relevant event performed by `predict`, in order. -/
inductive PEvent where
  | mkdirP (dir : String)
  | engineCall
  | imwrite (path : String)
deriving DecidableEq

/-- The `cv2.imwrite` events of the `for idx, r in enumerate(results)`
loop, starting the index at `i`. -/
def writeEventsFrom (outDir : String) : Nat → List EngineResult → List PEvent
  | _, [] => []
  | i, r :: rs => .imwrite (savePathOf outDir r i) :: writeEventsFrom outDir (i + 1) rs

/-- The records accumulated by the loop, starting the index at `i`. -/
def predictRecsFrom : Nat → List EngineResult → List FrameRec
  | _, [] => []
  | i, r :: rs => frameRecOf r i :: predictRecsFrom (i + 1) rs

/-- The ordered event trace of one `predict` call: the conditional
`out_dir.mkdir(parents=True, exist_ok=True)`, then the engine call, then —
when `save_img` — one `cv2.imwrite` per result. -/
def predictEvents (saveImg : Bool) (outDir : String) (results : List EngineResult) :
    List PEvent :=
  (if saveImg then [PEvent.mkdirP outDir] else []) ++
    PEvent.engineCall :: (if saveImg then writeEventsFrom outDir 0 results else [])

/-- `YOLOv11Det.predict`, given the engine's results: the returned list of
frame records, paired with the ordered trace of its file-system events. -/
def predict (saveImg : Bool) (outDir : String) (results : List EngineResult) :
    List FrameRec × List PEvent :=
  (predictRecsFrom 0 results, predictEvents saveImg outDir results)

/-- Effect of one `predict` event on the file system. -/
def applyPEvent (fs : FS) : PEvent → FS
  | .mkdirP d => mkdirParents fs (strPath d)
  | .engineCall => fs
  | .imwrite p => addFile fs (strPath p)

/-- Effect of an event trace on the file system. -/
def applyPEvents (fs : FS) (es : List PEvent) : FS := es.foldl applyPEvent fs

/-- Errors observable from `YOLOv11Det.__init__`: the wrapper's own
`FileNotFoundError(weight_path)`, or whatever the engine raises. -/
inductive InitError (E : Type) where
  | fileNotFound (p : String)
  | engine (e : E)

/-- `YOLOv11Det.__init__`: check `weight_path.exists()` first and raise
`FileNotFoundError` if it fails; only then hand the path to the engine
(`YOLO(str(weight_path)).to(device)`), whose outcome is the external
parameter `load`. -/
def initDet {M E : Type} (fs : FS) (weightPath : String)
    (load : String → Except E M) : Except (InitError E) M :=
  if pathExistsFS fs weightPath then
    match load weightPath with
    | .ok m => .ok m
    | .error e => .error (.engine e)
  else
    .error (.fileNotFound weightPath)

/-! ## Claims C2 and C3 -/

theorem predictRecsFrom_length (rs : List EngineResult) :
    ∀ i, (predictRecsFrom i rs).length = rs.length := by
  induction rs with
  | nil => intro i; rfl
  | cons r rs ih => intro i; simp [predictRecsFrom, ih]

/-- Claim C2: for every input, `predict` returns exactly one frame record
per result produced by the delegated engine call — the returned list has
the same length as the engine's result list, no frame skipped or
duplicated. -/
theorem predict_length_eq (saveImg : Bool) (outDir : String)
    (results : List EngineResult) :
    (predict saveImg outDir results).1.length = results.length := by
  simpa [predict] using predictRecsFrom_length results 0

/-- Claim C3: with `save_img=False`, a `predict` call leaves the file
system unchanged — in particular it creates no file and no directory under
the output directory. -/
theorem predict_no_save_fs_unchanged (fs : FS) (outDir : String)
    (results : List EngineResult) :
    applyPEvents fs (predict false outDir results).2 = fs := by
  simp [predict, predictEvents, applyPEvents, applyPEvent]

/-! ## Membership helpers for the file-system model -/

theorem mem_insertPath_self (l : List FPath) (p : FPath) : p ∈ insertPath l p := by
  unfold insertPath
  split
  · assumption
  · simp

theorem mem_insertPath_of_mem (l : List FPath) (p q : FPath) (h : q ∈ l) :
    q ∈ insertPath l p := by
  unfold insertPath
  split
  · exact h
  · simp [h]

theorem mem_foldl_insertPath_of_mem_acc (l : List FPath) :
    ∀ (acc : List FPath) (q : FPath), q ∈ acc → q ∈ l.foldl insertPath acc := by
  induction l with
  | nil => intro acc q h; exact h
  | cons p l ih =>
    intro acc q h
    exact ih (insertPath acc p) q (mem_insertPath_of_mem acc p q h)

theorem mem_foldl_insertPath_of_mem_list (l : List FPath) :
    ∀ (acc : List FPath) (q : FPath), q ∈ l → q ∈ l.foldl insertPath acc := by
  induction l with
  | nil => intro acc q h; cases h
  | cons p l ih =>
    intro acc q h
    rcases List.mem_cons.mp h with rfl | h
    · exact mem_foldl_insertPath_of_mem_acc l (insertPath acc q) q
        (mem_insertPath_self acc q)
    · exact ih (insertPath acc p) q h

theorem mem_mkdirParents_of_init (fs : FS) (p q : FPath)
    (hq : q ∈ p.inits) (hne : q ≠ []) : q ∈ (mkdirParents fs p).dirs := by
  unfold mkdirParents
  exact mem_foldl_insertPath_of_mem_list _ _ _
    (List.mem_filter.mpr ⟨hq, by simpa using hne⟩)

theorem dirs_subset_applyPEvent (fs : FS) (e : PEvent) :
    ∀ q ∈ fs.dirs, q ∈ (applyPEvent fs e).dirs := by
  intro q hq
  cases e with
  | mkdirP d => exact mem_foldl_insertPath_of_mem_acc _ _ _ hq
  | engineCall => exact hq
  | imwrite p => exact hq

theorem files_subset_applyPEvent (fs : FS) (e : PEvent) :
    ∀ q ∈ fs.files, q ∈ (applyPEvent fs e).files := by
  intro q hq
  cases e with
  | mkdirP d => exact hq
  | engineCall => exact hq
  | imwrite p => exact mem_insertPath_of_mem _ _ _ hq

theorem dirs_subset_applyPEvents (es : List PEvent) :
    ∀ (fs : FS) (q : FPath), q ∈ fs.dirs → q ∈ (applyPEvents fs es).dirs := by
  induction es with
  | nil => intro fs q h; exact h
  | cons e es ih =>
    intro fs q h
    exact ih (applyPEvent fs e) q (dirs_subset_applyPEvent fs e q h)

theorem files_subset_applyPEvents (es : List PEvent) :
    ∀ (fs : FS) (q : FPath), q ∈ fs.files → q ∈ (applyPEvents fs es).files := by
  induction es with
  | nil => intro fs q h; exact h
  | cons e es ih =>
    intro fs q h
    exact ih (applyPEvent fs e) q (files_subset_applyPEvent fs e q h)

theorem mem_files_applyPEvents_of_imwrite (es : List PEvent) :
    ∀ (fs : FS) (p : String), PEvent.imwrite p ∈ es →
      strPath p ∈ (applyPEvents fs es).files := by
  induction es with
  | nil => intro fs p h; cases h
  | cons e es ih =>
    intro fs p h
    rcases List.mem_cons.mp h with rfl | h
    · exact files_subset_applyPEvents es (applyPEvent fs (.imwrite p)) (strPath p)
        (mem_insertPath_self fs.files (strPath p))
    · exact ih (applyPEvent fs e) p h

/-! ## Claims C1, C9, C10 -/

/-- Claim C1: `YOLOv11Det.__init__` with a non-existent weight path always
fails with the wrapper's `FileNotFoundError`, before the engine's loader
is consulted at all (the outcome is the same for every loader); with an
existing weight path it never produces that error (it either succeeds or
propagates the engine's own error untranslated). -/
theorem initDet_not_found_check {M E : Type} (fs : FS) (wp : String) :
    (pathExistsFS fs wp = false → ∀ load : String → Except E M,
        initDet fs wp load = .error (.fileNotFound wp)) ∧
    (pathExistsFS fs wp = true → ∀ (load : String → Except E M) (p : String),
        initDet fs wp load ≠ .error (.fileNotFound p)) := by
  constructor
  · intro h load
    simp [initDet, h]
  · intro h load p hcontra
    rw [initDet] at hcontra
    simp only [h, if_true] at hcontra
    rcases hE : load wp with m | e <;> rw [hE] at hcontra <;> simp at hcontra

/-- Witness for C1: on the empty file system construction with `"w.pt"`
fails with the not-found error; once `["w.pt"]` exists as a file it does
not. -/
theorem initDet_not_found_check_witness :
    initDet (M := Nat) (E := Unit) ⟨[], []⟩ "w.pt" (fun _ => .ok 0) =
      .error (.fileNotFound "w.pt") ∧
    initDet (M := Nat) (E := Unit) ⟨[], [["w.pt"]]⟩ "w.pt" (fun _ => .ok 0) ≠
      .error (.fileNotFound "w.pt") := by
  constructor
  · exact (initDet_not_found_check ⟨[], []⟩ "w.pt").1 (by decide) _
  · exact fun h => (initDet_not_found_check ⟨[], [["w.pt"]]⟩ "w.pt").2 (by decide) _ _ h

/-- Claim C9: with `save_img=True`, `predict` creates the output directory
(with its missing parents) before the engine is invoked — the very first
event is the `mkdir(parents=True, exist_ok=True)` and the engine call is
the second — so the output directory and each of its ancestors exist after
the call, even when the engine yields zero frames. -/
theorem predict_save_creates_out_dir (fs : FS) (outDir : String)
    (results : List EngineResult) :
    (predict true outDir results).2.head? = some (.mkdirP outDir) ∧
    (predict true outDir results).2[1]? = some .engineCall ∧
    ∀ p ∈ (strPath outDir).inits, p ≠ [] →
      p ∈ (applyPEvents fs (predict true outDir results).2).dirs := by
  have hev : (predict true outDir results).2 =
      PEvent.mkdirP outDir :: PEvent.engineCall :: writeEventsFrom outDir 0 results := rfl
  rw [hev]
  refine ⟨rfl, by simp, ?_⟩
  intro p hp hne
  have h1 : p ∈ (applyPEvent fs (PEvent.mkdirP outDir)).dirs :=
    mem_mkdirParents_of_init fs (strPath outDir) p hp hne
  exact dirs_subset_applyPEvents (writeEventsFrom outDir 0 results) _ p
    (dirs_subset_applyPEvent (applyPEvent fs (PEvent.mkdirP outDir))
      PEvent.engineCall p h1)

/-- Witness for C9: with output directory `"runs/pred"` and an engine that
yields no frames, both `["runs"]` and `["runs", "pred"]` exist afterwards. -/
theorem predict_save_creates_out_dir_witness :
    strPath "runs/pred" ∈ (applyPEvents ⟨[], []⟩ (predict true "runs/pred" []).2).dirs ∧
    ["runs"] ∈ (applyPEvents ⟨[], []⟩ (predict true "runs/pred" []).2).dirs := by
  constructor
  · exact (predict_save_creates_out_dir ⟨[], []⟩ "runs/pred" []).2.2
      (strPath "runs/pred") (by decide) (by decide)
  · exact (predict_save_creates_out_dir ⟨[], []⟩ "runs/pred" []).2.2
      ["runs"] (by decide) (by decide)

theorem predictRecsFrom_getElem? (rs : List EngineResult) :
    ∀ (k i : Nat),
      (predictRecsFrom k rs)[i]? = (rs[i]?).map fun r => frameRecOf r (k + i) := by
  induction rs with
  | nil => intro k i; simp [predictRecsFrom]
  | cons r rs ih =>
    intro k i
    cases i with
    | zero => simp [predictRecsFrom]
    | succ j =>
      simp only [predictRecsFrom, List.getElem?_cons_succ, ih (k + 1) j]
      have : k + 1 + j = k + (j + 1) := by omega
      rw [this]

/-- Claim C10: every frame record returned by `predict` pairs a `source`
string with a `detections` list; the `i`-th record is exactly
`{"source": str(r.path or i), "detections": ...}` for the `i`-th engine
result (so a frame with no boxes still appears, with an empty detections
list, rather than being dropped), and when the frame's path is falsy
(`None` or `""`) its source is the decimal form of its index. -/
theorem predict_record_shape (saveImg : Bool) (outDir : String)
    (results : List EngineResult) (i : Nat) (r : EngineResult)
    (hi : results[i]? = some r) :
    (predict saveImg outDir results).1[i]? =
      some { source := sourceStr r i, detections := detsOf r } ∧
    (r.boxes = none ∨ r.boxes = some [] → detsOf r = []) ∧
    (pathTruthy r.path = false → sourceStr r i = toString i) := by
  refine ⟨?_, ?_, ?_⟩
  · show (predictRecsFrom 0 results)[i]? = _
    rw [predictRecsFrom_getElem?, hi]
    simp [frameRecOf]
  · rintro (h | h) <;> simp [detsOf, h]
  · intro h
    simp [sourceStr, h]

/-- Witness for C10: a single sourceless, box-less engine frame yields the
record `{"source": "0", "detections": []}`. -/
theorem predict_record_shape_witness :
    (predict false "o" [⟨none, none⟩]).1[0]? =
      some { source := sourceStr ⟨none, none⟩ 0, detections := detsOf ⟨none, none⟩ } ∧
    ((⟨none, none⟩ : EngineResult).boxes = none ∨
        (⟨none, none⟩ : EngineResult).boxes = some [] →
      detsOf ⟨none, none⟩ = []) ∧
    (pathTruthy (⟨none, none⟩ : EngineResult).path = false →
      sourceStr ⟨none, none⟩ 0 = toString 0) :=
  predict_record_shape false "o" [⟨none, none⟩] 0 ⟨none, none⟩ (by decide)

/-! ## Claim C4 -/

/-- The path written by an `imwrite` event, if any. -/
def imwritePath? : PEvent → Option String
  | .imwrite p => some p
  | _ => none

/-- The save paths the loop computes, one per engine result, starting the
index at `i`. -/
def savePathsFrom (outDir : String) : Nat → List EngineResult → List String
  | _, [] => []
  | i, r :: rs => savePathOf outDir r i :: savePathsFrom outDir (i + 1) rs

theorem savePathsFrom_length (outDir : String) (rs : List EngineResult) :
    ∀ i, (savePathsFrom outDir i rs).length = rs.length := by
  induction rs with
  | nil => intro i; rfl
  | cons r rs ih => intro i; simp [savePathsFrom, ih]

theorem writeEventsFrom_filterMap (outDir : String) (rs : List EngineResult) :
    ∀ i, (writeEventsFrom outDir i rs).filterMap imwritePath? =
      savePathsFrom outDir i rs := by
  induction rs with
  | nil => intro i; rfl
  | cons r rs ih =>
    intro i
    simp [writeEventsFrom, savePathsFrom, imwritePath?, ih]

theorem mem_writeEventsFrom (outDir : String) (rs : List EngineResult) :
    ∀ (k i : Nat) (r : EngineResult), rs[i]? = some r →
      PEvent.imwrite (savePathOf outDir r (k + i)) ∈ writeEventsFrom outDir k rs := by
  induction rs with
  | nil => intro k i r h; simp at h
  | cons r0 rs ih =>
    intro k i r h
    cases i with
    | zero =>
      simp only [List.getElem?_cons_zero, Option.some.injEq] at h
      subst h
      simp [writeEventsFrom]
    | succ j =>
      simp only [List.getElem?_cons_succ] at h
      have := ih (k + 1) j r h
      have heq : k + 1 + j = k + (j + 1) := by omega
      rw [heq] at this
      exact List.mem_cons_of_mem _ this

/-- Counterexample to claim C4 as stated: two engine results sharing the
source path `"v.mp4"` (two frames of one video) both write
`out/v_pred.jpg`; the call returns two frame records but leaves exactly
one annotated file on disk, so not every frame gets its own copy. -/
theorem predict_save_own_copy_cex :
    (predict true "out" [⟨some "v.mp4", none⟩, ⟨some "v.mp4", none⟩]).1.length = 2 ∧
    (applyPEvents ⟨[], []⟩
        (predict true "out" [⟨some "v.mp4", none⟩, ⟨some "v.mp4", none⟩]).2).files =
      [["out", "v_pred.jpg"]] := by
  constructor
  · rfl
  · rfl

/-- Claim C4 (amended): with `save_img=True`, `predict` performs exactly
one annotated-image write per engine result, in order, at the path built
from the source file's stem (or, for a sourceless frame, from the frame's
index); each frame's target path exists on disk afterwards — but frames
whose computed names coincide (e.g. frames of one video, which share a
path stem) write to the same file, so a frame need not end with a distinct
copy of its own. -/
theorem predict_save_writes_per_frame (fs : FS) (outDir : String)
    (results : List EngineResult) :
    (predict true outDir results).2.filterMap imwritePath? =
      savePathsFrom outDir 0 results ∧
    (savePathsFrom outDir 0 results).length = results.length ∧
    ∀ (i : Nat) (r : EngineResult), results[i]? = some r →
      strPath (savePathOf outDir r i) ∈
        (applyPEvents fs (predict true outDir results).2).files := by
  refine ⟨?_, savePathsFrom_length outDir results 0, ?_⟩
  · show (predictEvents true outDir results).filterMap imwritePath? = _
    simp [predictEvents, imwritePath?, writeEventsFrom_filterMap]
  · intro i r hi
    apply mem_files_applyPEvents_of_imwrite
    show PEvent.imwrite (savePathOf outDir r i) ∈
      PEvent.mkdirP outDir :: PEvent.engineCall :: writeEventsFrom outDir 0 results
    have := mem_writeEventsFrom outDir results 0 i r hi
    rw [Nat.zero_add] at this
    exact List.mem_cons_of_mem _ (List.mem_cons_of_mem _ this)

/-- Witness for the amended C4: one camera frame (no path) at index 0 is
written to `out/frame_00000000.jpg`, which exists afterwards. -/
theorem predict_save_writes_per_frame_witness :
    (predict true "out" [⟨none, none⟩]).2.filterMap imwritePath? =
      savePathsFrom "out" 0 [⟨none, none⟩] ∧
    (savePathsFrom "out" 0 [⟨none, none⟩]).length = 1 ∧
    strPath (savePathOf "out" ⟨none, none⟩ 0) ∈
      (applyPEvents ⟨[], []⟩ (predict true "out" [⟨none, none⟩]).2).files := by
  obtain ⟨h1, h2, h3⟩ := predict_save_writes_per_frame ⟨[], []⟩ "out" [⟨none, none⟩]
  exact ⟨h1, h2, h3 0 ⟨none, none⟩ (by decide)⟩

/-! ## Build pipeline: `build.py`

The script's constants `SRC`, `WORK`, `OBF`, `BUILD`, `DIST` become fixed
component lists (`DIST = BUILD.parent / "dist"` is `"dist"` relative to
the working directory).  The two subprocesses (the Cython `build_ext` run
and `uv build`) and the files they create are external and enter as an
`ExtWorld` parameter; everything `build.py` itself does to the file system is
embedded below. -/

def SRCp : FPath := ["src"]

def WORKp : FPath := ["build", "pkg"]

def OBFp : FPath := ["build", "obf"]

def BUILDp : FPath := ["build"]

def DISTp : FPath := ["dist"]

/-- `fnmatch`-style test used by `rglob("*.ext")`: the name ends with the
given literal tail (the `*` may match the empty string). -/
def strEndsWith (s tail : String) : Bool := tail.data.isSuffixOf s.data

/-- `pathlib`'s `.suffix` of a file NAME: from the last dot, provided that
dot is neither the first nor the last character. -/
def pySuffixName (name : String) : String :=
  match lastDotIdx name.data with
  | none => ""
  | some i =>
    if 0 < i ∧ i < name.data.length - 1 then String.mk (name.data.drop i) else ""

/-- A directory hit by the first branch of `clean`'s `SRC.rglob("*")`
loop: strictly below `src` and named `__pycache__`. -/
def srcPycacheDir (q : FPath) : Bool :=
  decide (SRCp <+: q ∧ SRCp.length < q.length ∧ q.getLastD "" = "__pycache__")

/-- A file hit by the second branch: strictly below `src` with
`path.suffix == ".pyc"`. -/
def srcPycFile (f : FPath) : Bool :=
  decide (SRCp <+: f ∧ SRCp.length < f.length ∧ pySuffixName (f.getLastD "") = ".pyc")

/-- A path lying below some existing `__pycache__` directory under `src`
(such paths disappear with the `shutil.rmtree` of that directory). -/
def underSrcPycache (ds : List FPath) (p : FPath) : Bool :=
  p.inits.any fun q => srcPycacheDir q && decide (q ∈ ds)

/-- `clean()`: `shutil.rmtree(p, ignore_errors=True)` for the literal
paths `"build"`, `"dist"` and `"*.egg-info"` (no glob expansion — the
string is passed verbatim), then removal of every `__pycache__` directory
and every `.pyc` file below `src`. -/
def cleanFS (fs : FS) : FS :=
  let fs3 := rmtree (rmtree (rmtree fs ["build"]) ["dist"]) ["*.egg-info"]
  { dirs := fs3.dirs.filter fun d => !(underSrcPycache fs3.dirs d),
    files := fs3.files.filter fun f => !(underSrcPycache fs3.dirs f || srcPycFile f) }

/-- Map a path below `src` to the corresponding path below `dst`. -/
def remapPath (src dst p : FPath) : FPath := dst ++ p.drop src.length

/-- `shutil.copytree(src, dst)` (with `dirs_exist_ok` immaterial here
because contents are not modelled): create `dst` and its parents, then
mirror every directory and file below `src`. -/
def copytreeFS (fs : FS) (src dst : FPath) : FS :=
  let fs1 := mkdirParents fs dst
  { dirs := ((fs.dirs.filter fun d => decide (src <+: d)).map
      (remapPath src dst)).foldl insertPath fs1.dirs,
    files := ((fs.files.filter fun f => decide (src <+: f)).map
      (remapPath src dst)).foldl insertPath fs1.files }

/-- Failure modes of the pipeline's stages. -/
inductive BuildErr where
  | fileNotFound (p : FPath)
  | runtimeNoPackages
  | subprocessFailed (cmd : String)
deriving DecidableEq

/-- External world: outcomes and file products of the two subprocesses. -/
structure ExtWorld where
  compileOk : Bool
  compileAdds : List FPath
  uvOk : Bool
  uvAdds : List FPath
deriving DecidableEq

/-- `copy_source()`: `shutil.rmtree(WORK, ignore_errors=True)` then
`shutil.copytree(SRC, WORK)` — which raises if `src` is absent. -/
def copySourceStep (fs : FS) : FS × Option BuildErr :=
  let fs1 := rmtree fs WORKp
  if SRCp ∈ fs1.dirs then (copytreeFS fs1 SRCp WORKp, none)
  else (fs1, some (.fileNotFound SRCp))

/-- The first-level packages `compile_so` finds: directories directly
under `WORK` containing an `__init__.py`. -/
def topPackages (fs : FS) : List FPath :=
  fs.dirs.filter fun d =>
    decide (WORKp <+: d ∧ d.length = WORKp.length + 1 ∧ (d ++ ["__init__.py"]) ∈ fs.files)

def setupCythonPath : FPath := WORKp ++ ["setup_cython.py"]

/-- `compile_so()`: list the packages (raising `RuntimeError` if none),
write `setup_cython.py`, run the Cython subprocess via
`subprocess.check_call` (its products and exit status are external), and
unlink `setup_cython.py` afterwards — the unlink is never reached when
`check_call` raises, so the temporary file then stays behind. -/
def compileSoStep (ext : ExtWorld) (fs : FS) : FS × Option BuildErr :=
  if WORKp ∈ fs.dirs then
    if topPackages fs = [] then (fs, some .runtimeNoPackages)
    else
      let fs1 := addFile fs setupCythonPath
      if ext.compileOk then
        (unlinkFile (ext.compileAdds.foldl addFile fs1) setupCythonPath, none)
      else (fs1, some (.subprocessFailed "setup_cython.py build_ext"))
  else (fs, some (.fileNotFound WORKp))

/-- `move_to_obf()`: wipe and recreate `OBF`, then `copytree` each
directory directly under `WORK` to `OBF/<name>` (`WORK.iterdir()` raises
when `WORK` is absent). -/
def moveToObfStep (fs : FS) : FS × Option BuildErr :=
  let fs2 := mkdirParents (rmtree fs OBFp) OBFp
  if WORKp ∈ fs2.dirs then
    let pkgs := fs2.dirs.filter fun d => decide (WORKp <+: d ∧ d.length = WORKp.length + 1)
    (pkgs.foldl (fun a d => copytreeFS a d (OBFp ++ [d.getLastD ""])) fs2, none)
  else (fs2, some (.fileNotFound WORKp))

/-- A file hit by `trim_obf()`: below `OBF`, matching `*.py` or `*.c`,
and not named `__init__.py`. -/
def trimTarget (f : FPath) : Bool :=
  decide (OBFp <+: f ∧ f.getLastD "" ≠ "__init__.py" ∧
    (strEndsWith (f.getLastD "") ".py" = true ∨ strEndsWith (f.getLastD "") ".c" = true))

/-- `trim_obf()`: unlink (with `missing_ok=True`) every `*.py` and `*.c`
below `OBF` except `__init__.py` files; `rglob` over an absent `OBF`
yields nothing. -/
def trimObfFS (fs : FS) : FS :=
  { fs with files := fs.files.filter fun f => !(trimTarget f) }

/-- An entry matched by `p.rglob("*.egg-info")` in `cleanup_egginfo`:
strictly below the base with a name ending in `.egg-info`.  Only existing
directories among them have any effect: `shutil.rmtree(egg,
ignore_errors=True)` on a plain file silently does nothing. -/
def eggDirUnder (base : FPath) (q : FPath) : Bool :=
  decide (base <+: q ∧ base.length < q.length ∧ strEndsWith (q.getLastD "") ".egg-info" = true)

/-- A path below some existing `*.egg-info` directory under `WORK` or
`OBF`. -/
def underEggDir (ds : List FPath) (p : FPath) : Bool :=
  p.inits.any fun q => (eggDirUnder WORKp q || eggDirUnder OBFp q) && decide (q ∈ ds)

/-- `cleanup_egginfo()`: remove every `*.egg-info` directory (with its
contents) below `WORK` and below `OBF`. -/
def cleanupEgginfoFS (fs : FS) : FS :=
  { dirs := fs.dirs.filter fun d => !(underEggDir fs.dirs d),
    files := fs.files.filter fun f => !(underEggDir fs.dirs f) }

/-- A file hit by `purge_build_artifacts`'s unlink loop: below `OBF`,
matching `*.c` or `*.o`. -/
def purgeFileTarget (f : FPath) : Bool :=
  decide (OBFp <+: f ∧
    (strEndsWith (f.getLastD "") ".c" = true ∨ strEndsWith (f.getLastD "") ".o" = true))

/-- `purge_build_artifacts()`: `rmtree(OBF/"build")`, unlink `*.c` and
`*.o` below `OBF`, then `rmtree(WORK)` — every removal tolerant of an
absent target. -/
def purgeBuildArtifactsFS (fs : FS) : FS :=
  let fs1 := rmtree fs (OBFp ++ ["build"])
  let fs2 := { fs1 with files := fs1.files.filter fun f => !(purgeFileTarget f) }
  rmtree fs2 WORKp

/-- `write_obf_pyproject()`: `shutil.copy` the project metadata file and
the readme into `BUILD` (raising when the source file — or the `build`
directory itself — is absent), then rewrite `build/pyproject.toml` in
place.  The rewrite only changes contents, which the model does not
track; `find_namespace_packages` only reads. -/
def writeObfPyprojectStep (fs : FS) : FS × Option BuildErr :=
  if ["pyproject.toml"] ∈ fs.files then
    if BUILDp ∈ fs.dirs then
      let fs1 := addFile fs (BUILDp ++ ["pyproject.toml"])
      if ["README.md"] ∈ fs.files then
        (addFile fs1 (BUILDp ++ ["README.md"]), none)
      else (fs1, some (.fileNotFound ["README.md"]))
    else (fs, some (.fileNotFound BUILDp))
  else (fs, some (.fileNotFound ["pyproject.toml"]))

/-- `uv_build()`: run `uv build --out-dir ../dist` via
`subprocess.check_call`; on success the tool creates the output directory
and its wheel (external products), on failure the script aborts. -/
def uvBuildStep (ext : ExtWorld) (fs : FS) : FS × Option BuildErr :=
  if ext.uvOk then (ext.uvAdds.foldl addFile (mkdirParents fs DISTp), none)
  else (fs, some (.subprocessFailed "uv build"))

/-- The nine function calls in `main()`, in source order. -/
inductive Stage where
  | clean
  | copySource
  | compileSo
  | moveToObf
  | trimObf
  | cleanupEgginfo
  | purgeBuildArtifacts
  | writeObfPyproject
  | uvBuild
deriving DecidableEq

/-- One stage of `main()` as a state transformer with optional failure. -/
def runStage (ext : ExtWorld) : Stage → FS → FS × Option BuildErr
  | .clean, fs => (cleanFS fs, none)
  | .copySource, fs => copySourceStep fs
  | .compileSo, fs => compileSoStep ext fs
  | .moveToObf, fs => moveToObfStep fs
  | .trimObf, fs => (trimObfFS fs, none)
  | .cleanupEgginfo, fs => (cleanupEgginfoFS fs, none)
  | .purgeBuildArtifacts, fs => (purgeBuildArtifactsFS fs, none)
  | .writeObfPyproject, fs => writeObfPyprojectStep fs
  | .uvBuild, fs => uvBuildStep ext fs

/-- The stage sequence of `main()` (build.py lines 179–187). -/
def mainStages : List Stage :=
  [.clean, .copySource, .compileSo, .moveToObf, .trimObf,
   .cleanupEgginfo, .purgeBuildArtifacts, .writeObfPyproject, .uvBuild]

/-- Run stages in order with Python exception propagation: the first
stage whose body raises stops everything, leaving the state exactly as
that stage's partial execution left it.  Returns the final state, the
list of stages that were (at least partially) executed, and the error if
one was raised. -/
def runPipeline (ext : ExtWorld) : List Stage → FS → FS × List Stage × Option BuildErr
  | [], fs => (fs, [], none)
  | s :: rest, fs =>
    match runStage ext s fs with
    | (fs1, some e) => (fs1, [s], some e)
    | (fs1, none) =>
      let r := runPipeline ext rest fs1
      (r.1, s :: r.2.1, r.2.2)

/-- Fold the (state part of the) stage effects over a stage list. -/
def applySeq (ext : ExtWorld) (fs : FS) (l : List Stage) : FS :=
  l.foldl (fun a s => (runStage ext s a).1) fs

/-- The spec's seven pipeline stages (section 2 of the spec); the three
consecutive cleanup calls of `main()` jointly form its
"strip intermediate sources" stage. -/
inductive SpecStage where
  | cleanWorkspace
  | copySources
  | compileNative
  | relocate
  | stripIntermediate
  | regenMetadata
  | package
deriving DecidableEq

/-- Which spec stage each `main()` call realizes. -/
def toSpecStage : Stage → SpecStage
  | .clean => .cleanWorkspace
  | .copySource => .copySources
  | .compileSo => .compileNative
  | .moveToObf => .relocate
  | .trimObf => .stripIntermediate
  | .cleanupEgginfo => .stripIntermediate
  | .purgeBuildArtifacts => .stripIntermediate
  | .writeObfPyproject => .regenMetadata
  | .uvBuild => .package

/-! ## Claims C5 and C7 -/

theorem runPipeline_fail (ext : ExtWorld) :
    ∀ (stages : List Stage) (fs : FS) (e : BuildErr),
      (runPipeline ext stages fs).2.2 = some e →
      ∃ done s rest, stages = done ++ s :: rest ∧
        (runPipeline ext stages fs).2.1 = done ++ [s] ∧
        (runStage ext s (applySeq ext fs done)).2 = some e ∧
        (runPipeline ext stages fs).1 = (runStage ext s (applySeq ext fs done)).1 := by
  intro stages
  induction stages with
  | nil =>
    intro fs e h
    simp [runPipeline] at h
  | cons s rest ih =>
    intro fs e h
    rcases hs : runStage ext s fs with ⟨fs1, err⟩
    cases err with
    | some e0 =>
      have hrun : runPipeline ext (s :: rest) fs = (fs1, [s], some e0) := by
        rw [runPipeline, hs]
      rw [hrun] at h ⊢
      obtain rfl : e0 = e := by simpa using h
      refine ⟨[], s, rest, rfl, rfl, ?_, ?_⟩
      · show (runStage ext s fs).2 = some e0
        rw [hs]
      · show fs1 = (runStage ext s fs).1
        rw [hs]
    | none =>
      have hrun : runPipeline ext (s :: rest) fs =
          ((runPipeline ext rest fs1).1, s :: (runPipeline ext rest fs1).2.1,
            (runPipeline ext rest fs1).2.2) := by
        rw [runPipeline, hs]
      rw [hrun] at h
      obtain ⟨done, s1, rest1, hsplit, htr, hfail, hfs⟩ := ih fs1 e h
      have happ : applySeq ext fs (s :: done) = applySeq ext fs1 done := by
        simp [applySeq, hs]
      refine ⟨s :: done, s1, rest1, by simp [hsplit], ?_, ?_, ?_⟩
      · rw [hrun]; simp [htr]
      · rw [happ]; exact hfail
      · rw [hrun, happ]; exact hfs

/-- Claim C5: if any stage of `main()` raises — a non-zero subprocess exit
surfaced by `check_call`, the no-packages `RuntimeError`, or a missing
file — the pipeline aborts on the spot: the executed stages are exactly
the successful prefix plus the failing stage (the remaining stages never
run), and the resulting file-system state is exactly what the executed
stages left behind — no rollback or repair of it happens. -/
theorem main_aborts_on_stage_failure (ext : ExtWorld) (fs : FS) (e : BuildErr)
    (h : (runPipeline ext mainStages fs).2.2 = some e) :
    ∃ done s rest, mainStages = done ++ s :: rest ∧
      (runPipeline ext mainStages fs).2.1 = done ++ [s] ∧
      (runStage ext s (applySeq ext fs done)).2 = some e ∧
      (runPipeline ext mainStages fs).1 = (runStage ext s (applySeq ext fs done)).1 :=
  runPipeline_fail ext mainStages fs e h

/-- Witness for C5: with a `src/pkg1` package present and a failing Cython
subprocess, `main()` stops at `compile_so` after `clean` and
`copy_source`. -/
theorem main_aborts_on_stage_failure_witness :
    (runPipeline ⟨false, [], true, []⟩ mainStages
        ⟨[["src"], ["src", "pkg1"]], [["src", "pkg1", "__init__.py"]]⟩).2.2 =
      some (.subprocessFailed "setup_cython.py build_ext") ∧
    ∃ done s rest, mainStages = done ++ s :: rest ∧
      (runPipeline ⟨false, [], true, []⟩ mainStages
          ⟨[["src"], ["src", "pkg1"]], [["src", "pkg1", "__init__.py"]]⟩).2.1 =
        done ++ [s] ∧
      (runStage ⟨false, [], true, []⟩ s
          (applySeq ⟨false, [], true, []⟩
            ⟨[["src"], ["src", "pkg1"]], [["src", "pkg1", "__init__.py"]]⟩ done)).2 =
        some (.subprocessFailed "setup_cython.py build_ext") ∧
      (runPipeline ⟨false, [], true, []⟩ mainStages
          ⟨[["src"], ["src", "pkg1"]], [["src", "pkg1", "__init__.py"]]⟩).1 =
        (runStage ⟨false, [], true, []⟩ s
          (applySeq ⟨false, [], true, []⟩
            ⟨[["src"], ["src", "pkg1"]], [["src", "pkg1", "__init__.py"]]⟩ done)).1 :=
  ⟨by decide, main_aborts_on_stage_failure _ _ _ (by decide)⟩

theorem runPipeline_ok_trace (ext : ExtWorld) :
    ∀ (stages : List Stage) (fs : FS),
      (runPipeline ext stages fs).2.2 = none →
      (runPipeline ext stages fs).2.1 = stages := by
  intro stages
  induction stages with
  | nil =>
    intro fs _
    rfl
  | cons s rest ih =>
    intro fs h
    rcases hs : runStage ext s fs with ⟨fs1, err⟩
    cases err with
    | some e0 =>
      rw [runPipeline, hs] at h
      simp at h
    | none =>
      rw [runPipeline, hs] at h ⊢
      simpa using ih fs1 h

/-- Claim C7: a run of `main()` that does not fail executes its nine
calls exactly in source order, none reordered, repeated or skipped; under
the spec's coarser naming (the three consecutive cleanup calls jointly
being its "strip intermediate sources" stage) this is precisely the
spec's fixed order clean → copy → compile → relocate → strip → regenerate
metadata → package. -/
theorem main_stage_order (ext : ExtWorld) (fs : FS)
    (h : (runPipeline ext mainStages fs).2.2 = none) :
    (runPipeline ext mainStages fs).2.1 = mainStages ∧
    mainStages.map toSpecStage =
      [.cleanWorkspace, .copySources, .compileNative, .relocate,
       .stripIntermediate, .stripIntermediate, .stripIntermediate,
       .regenMetadata, .package] ∧
    (mainStages.map toSpecStage).destutter (fun a b => a ≠ b) =
      [.cleanWorkspace, .copySources, .compileNative, .relocate,
       .stripIntermediate, .regenMetadata, .package] :=
  ⟨runPipeline_ok_trace ext mainStages fs h, by decide, by decide⟩

/-- Witness for C7: a complete successful run (package present, metadata
files present, both subprocesses succeeding) executes all nine stages in
order. -/
theorem main_stage_order_witness :
    (runPipeline ⟨true, [], true, []⟩ mainStages
        ⟨[["src"], ["src", "pkg1"]],
         [["src", "pkg1", "__init__.py"], ["pyproject.toml"], ["README.md"]]⟩).2.2 =
      none ∧
    (runPipeline ⟨true, [], true, []⟩ mainStages
        ⟨[["src"], ["src", "pkg1"]],
         [["src", "pkg1", "__init__.py"], ["pyproject.toml"], ["README.md"]]⟩).2.1 =
      mainStages :=
  ⟨by decide,
    (main_stage_order ⟨true, [], true, []⟩
      ⟨[["src"], ["src", "pkg1"]],
       [["src", "pkg1", "__init__.py"], ["pyproject.toml"], ["README.md"]]⟩
      (by decide)).1⟩

/-! ## Claims C6 and C8: the cleanup operations -/

theorem filter_eq_self_of_all {α : Type} (l : List α) (p : α → Bool)
    (h : ∀ a ∈ l, p a = true) : l.filter p = l := by
  induction l with
  | nil => rfl
  | cons a l ih =>
    simp [List.filter_cons, h a (by simp), ih fun b hb => h b (by simp [hb])]

theorem any_eq_false_of_all {α : Type} (l : List α) (p : α → Bool)
    (h : ∀ a ∈ l, p a = false) : l.any p = false := by
  induction l with
  | nil => rfl
  | cons a l ih =>
    simp [List.any_cons, h a (by simp), ih fun b hb => h b (by simp [hb])]

theorem rmtree_absent (fs : FS) (p : FPath) (h : p ∉ fs.dirs) : rmtree fs p = fs := by
  simp [rmtree, h]

theorem rmtree_dirs_subset (fs : FS) (p : FPath) :
    ∀ q ∈ (rmtree fs p).dirs, q ∈ fs.dirs := by
  intro q hq
  unfold rmtree at hq
  split at hq
  · exact (List.mem_filter.mp hq).1
  · exact hq

theorem rmtree_files_subset (fs : FS) (p : FPath) :
    ∀ q ∈ (rmtree fs p).files, q ∈ fs.files := by
  intro q hq
  unfold rmtree at hq
  split at hq
  · exact (List.mem_filter.mp hq).1
  · exact hq

theorem self_not_mem_rmtree (fs : FS) (p : FPath) : p ∉ (rmtree fs p).dirs := by
  by_cases h : p ∈ fs.dirs
  · intro hmem
    rw [rmtree, if_pos h] at hmem
    have h2 := (List.mem_filter.mp hmem).2
    simp at h2
  · rw [rmtree_absent fs p h]
    exact h

theorem mem_rmtree_of_not_below (fs : FS) (p q : FPath)
    (hq : q ∈ fs.dirs) (h : ¬ p <+: q) : q ∈ (rmtree fs p).dirs := by
  by_cases hp : p ∈ fs.dirs
  · rw [rmtree, if_pos hp]
    exact List.mem_filter.mpr ⟨hq, by simpa using h⟩
  · rw [rmtree_absent fs p hp]
    exact hq

theorem underSrcPycache_eq_false (ds : List FPath)
    (h : ∀ d ∈ ds, srcPycacheDir d = false) (p : FPath) :
    underSrcPycache ds p = false := by
  apply any_eq_false_of_all
  intro q hq
  by_cases hmem : q ∈ ds
  · simp [h q hmem]
  · simp [hmem]

/-- All of `clean`'s targets are already absent: no `build`, `dist` or
literal `*.egg-info` directory, no `__pycache__` directory and no `.pyc`
file below `src`. -/
def cleanTargetsAbsent (fs : FS) : Bool :=
  decide (["build"] ∉ fs.dirs) && decide (["dist"] ∉ fs.dirs) &&
    decide (["*.egg-info"] ∉ fs.dirs) &&
    fs.dirs.all (fun d => !(srcPycacheDir d)) &&
    fs.files.all (fun f => !(srcPycFile f))

theorem cleanFS_noop (fs : FS) (h : cleanTargetsAbsent fs = true) : cleanFS fs = fs := by
  simp only [cleanTargetsAbsent, Bool.and_eq_true, decide_eq_true_eq, List.all_eq_true,
    Bool.not_eq_true'] at h
  obtain ⟨⟨⟨⟨h1, h2⟩, h3⟩, h4⟩, h5⟩ := h
  simp only [cleanFS]
  rw [rmtree_absent fs _ h1, rmtree_absent fs _ h2, rmtree_absent fs _ h3]
  rw [filter_eq_self_of_all fs.dirs _ (fun d _ => by
    simp [underSrcPycache_eq_false fs.dirs h4])]
  rw [filter_eq_self_of_all fs.files _ (fun f hf => by
    simp [underSrcPycache_eq_false fs.dirs h4, h5 f hf])]

theorem cleanTargetsAbsent_after (fs : FS) : cleanTargetsAbsent (cleanFS fs) = true := by
  have hsub : ∀ q ∈ (cleanFS fs).dirs,
      q ∈ (rmtree (rmtree (rmtree fs ["build"]) ["dist"]) ["*.egg-info"]).dirs := by
    intro q hq
    simp only [cleanFS] at hq
    exact (List.mem_filter.mp hq).1
  simp only [cleanTargetsAbsent, Bool.and_eq_true, decide_eq_true_eq, List.all_eq_true,
    Bool.not_eq_true']
  refine ⟨⟨⟨⟨?_, ?_⟩, ?_⟩, ?_⟩, ?_⟩
  · intro hmem
    exact self_not_mem_rmtree fs ["build"]
      (rmtree_dirs_subset _ _ _ (rmtree_dirs_subset _ _ _ (hsub _ hmem)))
  · intro hmem
    exact self_not_mem_rmtree (rmtree fs ["build"]) ["dist"]
      (rmtree_dirs_subset _ _ _ (hsub _ hmem))
  · intro hmem
    exact self_not_mem_rmtree (rmtree (rmtree fs ["build"]) ["dist"]) ["*.egg-info"]
      (hsub _ hmem)
  · intro d hd
    simp only [cleanFS] at hd
    have hpred := (List.mem_filter.mp hd).2
    have hmem3 := (List.mem_filter.mp hd).1
    by_contra hcon
    rw [Bool.not_eq_false] at hcon
    have : underSrcPycache
        (rmtree (rmtree (rmtree fs ["build"]) ["dist"]) ["*.egg-info"]).dirs d = true := by
      apply List.any_eq_true.mpr
      exact ⟨d, (List.mem_inits d d).mpr (List.prefix_refl d), by simp [hcon, hmem3]⟩
    simp [this] at hpred
  · intro f hf
    simp only [cleanFS] at hf
    have hpred := (List.mem_filter.mp hf).2
    by_contra hcon
    rw [Bool.not_eq_false] at hcon
    simp [hcon] at hpred

/-- All of `trim_obf`'s targets are absent. -/
def trimTargetsAbsent (fs : FS) : Bool :=
  fs.files.all fun f => !(trimTarget f)

theorem trimObfFS_noop (fs : FS) (h : trimTargetsAbsent fs = true) : trimObfFS fs = fs := by
  simp only [trimTargetsAbsent, List.all_eq_true] at h
  simp only [trimObfFS]
  rw [filter_eq_self_of_all fs.files _ h]

theorem underEggDir_eq_false (ds : List FPath)
    (h : ∀ d ∈ ds, (eggDirUnder WORKp d || eggDirUnder OBFp d) = false) (p : FPath) :
    underEggDir ds p = false := by
  apply any_eq_false_of_all
  intro q hq
  by_cases hmem : q ∈ ds
  · simp [h q hmem]
  · simp [hmem]

/-- All of `cleanup_egginfo`'s targets are absent: no `*.egg-info`
directory below `WORK` or `OBF`. -/
def eggTargetsAbsent (fs : FS) : Bool :=
  fs.dirs.all fun d => !(eggDirUnder WORKp d || eggDirUnder OBFp d)

theorem cleanupEgginfoFS_noop (fs : FS) (h : eggTargetsAbsent fs = true) :
    cleanupEgginfoFS fs = fs := by
  simp only [eggTargetsAbsent, List.all_eq_true, Bool.not_eq_true'] at h
  simp only [cleanupEgginfoFS]
  rw [filter_eq_self_of_all fs.dirs _ (fun d _ => by simp [underEggDir_eq_false fs.dirs h]),
    filter_eq_self_of_all fs.files _ (fun f _ => by simp [underEggDir_eq_false fs.dirs h])]

theorem eggTargetsAbsent_after (fs : FS) : eggTargetsAbsent (cleanupEgginfoFS fs) = true := by
  simp only [eggTargetsAbsent, List.all_eq_true, Bool.not_eq_true']
  intro d hd
  simp only [cleanupEgginfoFS] at hd
  have hpred := (List.mem_filter.mp hd).2
  have hmem := (List.mem_filter.mp hd).1
  by_contra hcon
  rw [Bool.not_eq_false] at hcon
  have : underEggDir fs.dirs d = true := by
    apply List.any_eq_true.mpr
    exact ⟨d, (List.mem_inits d d).mpr (List.prefix_refl d), by simp [hcon, hmem]⟩
  simp [this] at hpred

/-- All of `purge_build_artifacts`'s targets are absent. -/
def purgeTargetsAbsent (fs : FS) : Bool :=
  decide ((OBFp ++ ["build"]) ∉ fs.dirs) &&
    fs.files.all (fun f => !(purgeFileTarget f)) && decide (WORKp ∉ fs.dirs)

theorem purgeBuildArtifactsFS_noop (fs : FS) (h : purgeTargetsAbsent fs = true) :
    purgeBuildArtifactsFS fs = fs := by
  simp only [purgeTargetsAbsent, Bool.and_eq_true, decide_eq_true_eq,
    List.all_eq_true] at h
  obtain ⟨⟨h1, h2⟩, h3⟩ := h
  simp only [purgeBuildArtifactsFS]
  rw [rmtree_absent fs _ h1]
  rw [filter_eq_self_of_all fs.files _ h2]
  exact rmtree_absent fs WORKp h3

theorem purgeTargetsAbsent_after (fs : FS) :
    purgeTargetsAbsent (purgeBuildArtifactsFS fs) = true := by
  simp only [purgeTargetsAbsent, Bool.and_eq_true, decide_eq_true_eq, List.all_eq_true]
  refine ⟨⟨?_, ?_⟩, ?_⟩
  · intro hmem
    have hmem2 := rmtree_dirs_subset _ WORKp _ hmem
    exact self_not_mem_rmtree fs (OBFp ++ ["build"]) hmem2
  · intro f hf
    have hf2 := rmtree_files_subset _ WORKp _ hf
    exact (List.mem_filter.mp hf2).2
  · exact self_not_mem_rmtree _ WORKp

/-- Claim C6: each of `clean`, `trim_obf`, `cleanup_egginfo` and
`purge_build_artifacts` is a no-op when its targets are already absent
(its removals tolerate absent paths by construction, so nothing is raised
either), and running any of them twice in a row leaves the same
file-system state as running it once. -/
theorem cleanup_noop_and_idempotent (fs : FS) :
    (cleanTargetsAbsent fs = true → cleanFS fs = fs) ∧
    cleanFS (cleanFS fs) = cleanFS fs ∧
    (trimTargetsAbsent fs = true → trimObfFS fs = fs) ∧
    trimObfFS (trimObfFS fs) = trimObfFS fs ∧
    (eggTargetsAbsent fs = true → cleanupEgginfoFS fs = fs) ∧
    cleanupEgginfoFS (cleanupEgginfoFS fs) = cleanupEgginfoFS fs ∧
    (purgeTargetsAbsent fs = true → purgeBuildArtifactsFS fs = fs) ∧
    purgeBuildArtifactsFS (purgeBuildArtifactsFS fs) = purgeBuildArtifactsFS fs := by
  refine ⟨cleanFS_noop fs, cleanFS_noop _ (cleanTargetsAbsent_after fs),
    trimObfFS_noop fs, ?_,
    cleanupEgginfoFS_noop fs, cleanupEgginfoFS_noop _ (eggTargetsAbsent_after fs),
    purgeBuildArtifactsFS_noop fs, purgeBuildArtifactsFS_noop _ (purgeTargetsAbsent_after fs)⟩
  apply trimObfFS_noop
  simp only [trimTargetsAbsent, List.all_eq_true]
  intro f hf
  exact (List.mem_filter.mp hf).2

/-- Witness for C6: on a state holding only `src` and `src/m.txt`, every
cleanup stage's absence condition holds and each stage leaves the state
untouched. -/
theorem cleanup_noop_and_idempotent_witness :
    cleanFS ⟨[["src"]], [["src", "m.txt"]]⟩ = ⟨[["src"]], [["src", "m.txt"]]⟩ ∧
    trimObfFS ⟨[["src"]], [["src", "m.txt"]]⟩ = ⟨[["src"]], [["src", "m.txt"]]⟩ ∧
    cleanupEgginfoFS ⟨[["src"]], [["src", "m.txt"]]⟩ = ⟨[["src"]], [["src", "m.txt"]]⟩ ∧
    purgeBuildArtifactsFS ⟨[["src"]], [["src", "m.txt"]]⟩ = ⟨[["src"]], [["src", "m.txt"]]⟩ :=
  ⟨(cleanup_noop_and_idempotent _).1 (by decide),
   (cleanup_noop_and_idempotent _).2.2.1 (by decide),
   (cleanup_noop_and_idempotent _).2.2.2.2.1 (by decide),
   (cleanup_noop_and_idempotent _).2.2.2.2.2.2.1 (by decide)⟩

theorem single_prefix_eq {a b : String} (h : [a] <+: [b]) : a = b := by
  rcases h with ⟨t, ht⟩
  simp at ht
  exact ht.1

theorem srcPycacheDir_short (q : FPath) (h : q.length ≤ 1) : srcPycacheDir q = false := by
  apply decide_eq_false
  rintro ⟨_, h2, _⟩
  simp only [SRCp, List.length_cons, List.length_nil] at h2
  omega

theorem underSrcPycache_single (ds : List FPath) (n : String) :
    underSrcPycache ds [n] = false := by
  apply any_eq_false_of_all
  intro q hq
  have hle : q.length ≤ 1 := by
    have hp := (List.mem_inits q [n]).mp hq
    simpa using hp.length_le
  simp [srcPycacheDir_short q hle]

/-- Claim C8: `clean` passes the literal string `"*.egg-info"` — not a
glob expansion — to `shutil.rmtree`, so when no directory bears that
literal name the call is silently a no-op, and every actual top-level
`<name>.egg-info` directory survives `clean` untouched. -/
theorem clean_literal_egginfo (fs : FS) :
    (["*.egg-info"] ∉ fs.dirs → rmtree fs ["*.egg-info"] = fs) ∧
    (∀ n : String, [n] ∈ fs.dirs → strEndsWith n ".egg-info" = true →
      n ≠ "*.egg-info" → [n] ∈ (cleanFS fs).dirs) := by
  constructor
  · exact fun h => rmtree_absent fs _ h
  · intro n hmem hend hne
    have hnb : n ≠ "build" := by
      rintro rfl
      exact absurd hend (by decide)
    have hnd : n ≠ "dist" := by
      rintro rfl
      exact absurd hend (by decide)
    have h1 : [n] ∈ (rmtree fs ["build"]).dirs :=
      mem_rmtree_of_not_below fs _ _ hmem fun hp => hnb (single_prefix_eq hp).symm
    have h2 : [n] ∈ (rmtree (rmtree fs ["build"]) ["dist"]).dirs :=
      mem_rmtree_of_not_below _ _ _ h1 fun hp => hnd (single_prefix_eq hp).symm
    have h3 : [n] ∈ (rmtree (rmtree (rmtree fs ["build"]) ["dist"]) ["*.egg-info"]).dirs :=
      mem_rmtree_of_not_below _ _ _ h2 fun hp => hne (single_prefix_eq hp).symm
    simp only [cleanFS]
    exact List.mem_filter.mpr ⟨h3, by simp [underSrcPycache_single]⟩

/-- Witness for C8: the top-level directory `foo.egg-info` survives
`clean`, and on that state the literal `rmtree("*.egg-info")` is a no-op. -/
theorem clean_literal_egginfo_witness :
    rmtree ⟨[["foo.egg-info"]], []⟩ ["*.egg-info"] = ⟨[["foo.egg-info"]], []⟩ ∧
    ["foo.egg-info"] ∈ (cleanFS ⟨[["foo.egg-info"]], []⟩).dirs :=
  ⟨(clean_literal_egginfo ⟨[["foo.egg-info"]], []⟩).1 (by decide),
   (clean_literal_egginfo ⟨[["foo.egg-info"]], []⟩).2 "foo.egg-info"
     (by decide) (by decide) (by decide)⟩
